import Mathlib

/-!
Verification of the openlink-coldfire host-side debug agent.

This file gives a shallow embedding of the parts of the C sources that the
claims speak about:

* the persistent 256-byte BDM command buffer and the request builders of
  `src/openlink_protocol.c` (claims C1, C3, C7);
* the BDM freeze check `cmd_bdm_freeze` (C5);
* the single-step counter logic of `handle_step` /
  `reset_single_step_capability` in `src/m68k-gdbserver.c` (C6);
* the RSP binary unescaper `rsp_unescape_binary` (C8);
* the vFlashWrite/vFlashDone buffering and `gpl_flash_program` chunking
  (C2);
* the table-driven `xcrc32` and the qCRC reply (C4);
* `handle_read_memory` and `bytes_to_hex` (C9), together with the
  USB-level response assembly and validation of `cmd_0717_read_memory`
  (C10).
-/

/-! ## Persistent command buffer model

The global `g_cmd_buffer` is a 256-byte array.  We model a buffer as a
function from index to byte value; a command builder is a function from the
previous buffer contents to the new contents.  `send_aa_command` copies the
pod response over the buffer, so the buffer seen by the next builder is the
previous response. -/

def Buf : Type := Nat → Nat

/-- Single array store `cmd[i] = v`. -/
def wr (i v : Nat) (b : Buf) : Buf := fun j => if j = i then v else b j

/-- Write the list `l` over the first `l.length` bytes of the buffer,
leaving the rest untouched.  This is the shape of every plain builder in
`openlink_protocol.c`: a sequence of `cmd[k] = …` stores for `k = 0, 1, …`. -/
def headerWrite (l : List Nat) (b : Buf) : Buf :=
  fun j => if j < l.length then l.getD j 0 else b j

/-- `memset(cmd, 0x00, 256)` at the top of `cmd_07_19`. -/
def memzero256 (b : Buf) : Buf := fun j => if j < 256 then 0 else b j

/-- Byte `k` (little-endian position, i.e. `(x >> (8*k)) & 0xFF`) of `x`. -/
def byteOf (x k : Nat) : Nat := x / 256 ^ k % 256

/-- The padding loop of `cmd_07_19`:
`for (i = 16; i < 256; i += 6) { cmd[i] = 0x02; cmd[i+5] = 0x02; }`.
The first argument is recursion fuel (256 suffices for the step-6 walk). -/
def pad0719 : Nat → Nat → Buf → Buf
  | 0, _, b => b
  | fuel + 1, i, b =>
      if i < 256 then pad0719 fuel (i + 6) (wr (i + 5) 2 (wr i 2 b)) else b

/-- The step-2 padding loops used by `cmd_07_12`, `cmd_07_1e`,
`cmd_071e_write_sram`, `cmd_07_17_setup_window` and
`cmd_07_11_read_bdm_reg`:
`for (i = start; i < 256; i += 2) { cmd[i] = v1; if (i+1 < 256) cmd[i+1] = v2; }`. -/
def pad2 (v1 v2 : Nat) : Nat → Nat → Buf → Buf
  | 0, _, b => b
  | fuel + 1, i, b =>
      if i < 256 then
        pad2 v1 v2 fuel (i + 2)
          (if i + 1 < 256 then wr (i + 1) v2 (wr i v1 b) else wr i v1 b)
      else b

/-- One constructor per `AA 55` request builder of `openlink_protocol.c`
that writes through the global persistent buffer. -/
inductive BdmCommand where
  | writeMemoryByteAddr (addr data : Nat)
  | readMemoryByteAddr (addr : Nat)
  | writeMemoryWordAddr (addr data : Nat)
  | readMemoryWordAddr (addr : Nat)
  | writeMemoryShortAddr (addr data : Nat)
  | writeMemoryLongAddr (addr data : Nat)
  | setMemoryWindow (addr : Nat)
  | readMemoryLongAddr (addr : Nat)
  | read0717 (addr length : Nat)
  | read071b (addr length : Nat)
  | bdmResume
  | bdmGo
  | write0714BdmReg (reg value : Nat)
  | write0714DebugReg (drc value : Nat)
  | bdmFreeze
  | enterMode (mode : Nat)
  | enableMemoryAccess (param : Nat)
  | readMemoryBlock (addr : Nat)
  | setupWindow0717 (addr : Nat)
  | setup071b (addr size : Nat)
  | sync0712 (param : Nat)
  | cfmInit071e (p1 p2 p3 : Nat)
  | writeSram071e (addr data : Nat)
  | readBdmReg (reg : Nat)
  | writeBdmReg (reg data : Nat)
  | config0711 (reg p1 p2 p3 p4 : Nat)
  | readBdmReg0711 (window reg : Nat)
  | writePc0716 (pc : Nat)
  | config0715 (reg : Nat) (params : List Nat)
  | bdmHalt
  | cmd0795
  | bdmCmd0002
  | cmd0714 (reg p1 p2 p3 p4 addr : Nat)
  | cmd0719 (addr data : Nat)
  | cmd0710 (reg : Nat)
  | ramTest0717
  | deviceInfo010b
  | config07a2 (param : Nat)
  | init04405804
  | cmd047ffe02
  | cmd04400002
  | readReg0713 (reg : Nat)

/-- The `len` field (`cmd[2..3]`, counting from `cmd_byte` inclusive) each
builder declares. -/
def bdmDeclaredLen : BdmCommand → Nat
  | .writeMemoryByteAddr _ _ => 0x0A
  | .readMemoryByteAddr _ => 0x04
  | .writeMemoryWordAddr _ _ => 0x06
  | .readMemoryWordAddr _ => 0x04
  | .writeMemoryShortAddr _ _ => 0x08
  | .writeMemoryLongAddr _ _ => 0x0A
  | .setMemoryWindow _ => 0x05
  | .readMemoryLongAddr _ => 0x06
  | .read0717 _ _ => 0x08
  | .read071b _ _ => 0x08
  | .bdmResume => 0x04
  | .bdmGo => 0x05
  | .write0714BdmReg _ _ => 0x0C
  | .write0714DebugReg _ _ => 0x0C
  | .bdmFreeze => 0x04
  | .enterMode _ => 0x03
  | .enableMemoryAccess _ => 0x03
  | .readMemoryBlock _ => 0x08
  | .setupWindow0717 _ => 0x08
  | .setup071b _ _ => 0x08
  | .sync0712 _ => 0x02
  | .cfmInit071e _ _ _ => 0x09
  | .writeSram071e _ _ => 0x0C
  | .readBdmReg _ => 0x04
  | .writeBdmReg _ _ => 0x08
  | .config0711 _ _ _ _ _ => 0x08
  | .readBdmReg0711 _ _ => 0x08
  | .writePc0716 _ => 0x08
  | .config0715 _ params => 4 + params.length
  | .bdmHalt => 0x04
  | .cmd0795 => 0x02
  | .bdmCmd0002 => 0x04
  | .cmd0714 _ _ _ _ _ _ => 0x0C
  | .cmd0719 _ _ => 0x0C
  | .cmd0710 _ => 0x05
  | .ramTest0717 => 0x08
  | .deviceInfo010b => 0x02
  | .config07a2 _ => 0x03
  | .init04405804 => 0x04
  | .cmd047ffe02 => 0x04
  | .cmd04400002 => 0x04
  | .readReg0713 _ => 0x04

/-- Which builders overwrite the tail of the buffer with an explicit
padding pattern (instead of leaving leftover response bytes in place). -/
def bdmWritesPadding : BdmCommand → Bool
  | .setupWindow0717 _ => true
  | .sync0712 _ => true
  | .cfmInit071e _ _ _ => true
  | .writeSram071e _ _ => true
  | .readBdmReg0711 _ _ => true
  | .cmd0719 _ _ => true
  | _ => false

/-- The outgoing 256-byte request each builder produces from the previous
buffer contents, transcribed store-by-store from `openlink_protocol.c`. -/
def bdmBuild : BdmCommand → Buf → Buf
  | .writeMemoryByteAddr a d, b =>
      headerWrite [0xAA, 0x55, 0x00, 0x0A, 0x07, 0x15, 0x18, 0x00,
        byteOf a 3, byteOf a 2, byteOf a 1, byteOf a 0, 0x00, d % 256] b
  | .readMemoryByteAddr a, b =>
      headerWrite [0xAA, 0x55, 0x00, 0x04, 0x07, 0x13,
        byteOf a 3, byteOf a 2, byteOf a 1, byteOf a 0] b
  | .writeMemoryWordAddr a d, b =>
      headerWrite [0xAA, 0x55, 0x00, 0x06, 0x07, 0x16,
        byteOf a 3, byteOf a 2, byteOf a 1, byteOf a 0,
        byteOf d 1, byteOf d 0] b
  | .readMemoryWordAddr a, b =>
      headerWrite [0xAA, 0x55, 0x00, 0x04, 0x07, 0x13,
        byteOf a 3, byteOf a 2, byteOf a 1, byteOf a 0] b
  | .writeMemoryShortAddr a d, b =>
      headerWrite [0xAA, 0x55, 0x00, 0x08, 0x07, 0x16,
        byteOf a 1, byteOf a 0,
        byteOf d 3, byteOf d 2, byteOf d 1, byteOf d 0] b
  | .writeMemoryLongAddr a d, b =>
      headerWrite [0xAA, 0x55, 0x00, 0x0A, 0x07, 0x16,
        byteOf a 3, byteOf a 2, byteOf a 1, byteOf a 0,
        byteOf d 3, byteOf d 2, byteOf d 1, byteOf d 0] b
  | .setMemoryWindow a, b =>
      headerWrite [0xAA, 0x55, 0x00, 0x05, 0x07, 0x10,
        byteOf a 3, byteOf a 2, byteOf a 1, byteOf a 0] b
  | .readMemoryLongAddr a, b =>
      headerWrite [0xAA, 0x55, 0x00, 0x06, 0x07, 0x13,
        byteOf a 3, byteOf a 2, byteOf a 1, byteOf a 0] b
  | .read0717 a len, b =>
      headerWrite [0xAA, 0x55, 0x00, 0x08, 0x07, 0x17,
        byteOf a 3, byteOf a 2, byteOf a 1, byteOf a 0,
        byteOf ((len % 65536 + 3) / 4 * 6 % 65536) 1,
        byteOf ((len % 65536 + 3) / 4 * 6 % 65536) 0] b
  | .read071b a len, b =>
      headerWrite [0xAA, 0x55, 0x00, 0x08, 0x07, 0x1B,
        byteOf a 3, byteOf a 2, byteOf a 1, byteOf a 0,
        byteOf len 1, byteOf len 0] b
  | .bdmResume, b =>
      headerWrite [0xAA, 0x55, 0x00, 0x04, 0x04, 0x40, 0x58, 0x04] b
  | .bdmGo, b =>
      headerWrite [0xAA, 0x55, 0x00, 0x05, 0x07, 0x02, 0xFC, 0x0C, 0x00] b
  | .write0714BdmReg r v, b =>
      headerWrite [0xAA, 0x55, 0x00, 0x0C, 0x07, 0x14, 0x28, 0x80, 0x00, 0x00,
        byteOf r 1, byteOf r 0,
        byteOf v 3, byteOf v 2, byteOf v 1, byteOf v 0] b
  | .write0714DebugReg drc v, b =>
      headerWrite [0xAA, 0x55, 0x00, 0x0C, 0x07, 0x14, 0x2C,
        Nat.lor 0x42 (drc % 32), 0x00, 0x00, 0x00, drc % 256,
        byteOf v 3, byteOf v 2, byteOf v 1, byteOf v 0] b
  | .bdmFreeze, b =>
      headerWrite [0xAA, 0x55, 0x00, 0x04, 0x04, 0x7F, 0xFE, 0x02] b
  | .enterMode m, b =>
      headerWrite [0xAA, 0x55, 0x00, 0x03, 0x07, 0x01, m % 256] b
  | .enableMemoryAccess p, b =>
      headerWrite [0xAA, 0x55, 0x00, 0x03, 0x07, 0x0A, p % 256] b
  | .readMemoryBlock a, b =>
      headerWrite [0xAA, 0x55, 0x00, 0x08, 0x07, 0x17,
        byteOf a 3, byteOf a 2, byteOf a 1, byteOf a 0, 0x01, 0x00] b
  | .setupWindow0717 a, b =>
      pad2 0xFF 0x00 256 12
        (headerWrite [0xAA, 0x55, 0x00, 0x08, 0x07, 0x17,
          byteOf a 3, byteOf a 2, byteOf a 1, byteOf a 0, 0x00, 0x04] b)
  | .setup071b a s, b =>
      headerWrite [0xAA, 0x55, 0x00, 0x08, 0x07, 0x1B,
        byteOf a 3, byteOf a 2, byteOf a 1, byteOf a 0,
        byteOf s 1, byteOf s 0] b
  | .sync0712 p, b =>
      pad2 (byteOf p 1) (byteOf p 0) 256 6
        (headerWrite [0xAA, 0x55, 0x00, 0x02, 0x07, 0x12] b)
  | .cfmInit071e p1 p2 p3, b =>
      pad2 0x00 0xFF 256 13
        (headerWrite [0xAA, 0x55, 0x00, 0x09, 0x07, 0x1E,
          byteOf p1 1, byteOf p1 0,
          byteOf p2 3, byteOf p2 2, byteOf p2 1, byteOf p2 0, p3 % 256] b)
  | .writeSram071e a d, b =>
      pad2 0x00 0xFF 256 16
        (headerWrite [0xAA, 0x55, 0x00, 0x0C, 0x07, 0x1E, 0x00, 0x04,
          byteOf a 3, byteOf a 2, byteOf a 1, byteOf a 0,
          byteOf d 3, byteOf d 2, byteOf d 1, byteOf d 0] b)
  | .readBdmReg r, b =>
      headerWrite [0xAA, 0x55, 0x00, 0x04, 0x07, 0x13,
        byteOf r 1, byteOf r 0] b
  | .writeBdmReg r d, b =>
      headerWrite [0xAA, 0x55, 0x00, 0x08, 0x07, 0x16,
        byteOf r 1, byteOf r 0,
        byteOf d 3, byteOf d 2, byteOf d 1, byteOf d 0] b
  | .config0711 r p1 p2 p3 p4, b =>
      headerWrite [0xAA, 0x55, 0x00, 0x08, 0x07, 0x11,
        byteOf r 1, byteOf r 0, p1 % 256, p2 % 256, p3 % 256, p4 % 256] b
  | .readBdmReg0711 w r, b =>
      pad2 0xFF 0x00 256 12
        (headerWrite [0xAA, 0x55, 0x00, 0x08, 0x07, 0x11,
          byteOf w 1, byteOf w 0, 0x00, 0x00, byteOf r 1, byteOf r 0] b)
  | .writePc0716 pc, b =>
      headerWrite [0xAA, 0x55, 0x00, 0x08, 0x07, 0x16, 0x08, 0x0F,
        byteOf pc 3, byteOf pc 2, byteOf pc 1, byteOf pc 0] b
  | .config0715 r params, b =>
      headerWrite ([0xAA, 0x55, byteOf (4 + params.length) 1,
        byteOf (4 + params.length) 0, 0x07, 0x15, byteOf r 1, byteOf r 0] ++
        (params.take 248).map (· % 256)) b
  | .bdmHalt, b =>
      headerWrite [0xAA, 0x55, 0x00, 0x04, 0x04, 0x40, 0x00, 0x01] b
  | .cmd0795, b =>
      headerWrite [0xAA, 0x55, 0x00, 0x02, 0x07, 0x95] b
  | .bdmCmd0002, b =>
      headerWrite [0xAA, 0x55, 0x00, 0x04, 0x04, 0x40, 0x00, 0x02] b
  | .cmd0714 r p1 p2 p3 p4 a, b =>
      headerWrite [0xAA, 0x55, 0x00, 0x0C, 0x07, 0x14,
        byteOf r 1, byteOf r 0, p1 % 256, p2 % 256, p3 % 256, p4 % 256,
        byteOf a 3, byteOf a 2, byteOf a 1, byteOf a 0] b
  | .cmd0719 a d, b =>
      headerWrite [0xAA, 0x55, 0x00, 0x0C, 0x07, 0x19, 0x00, 0x04,
        byteOf a 3, byteOf a 2, byteOf a 1, byteOf a 0,
        byteOf d 3, byteOf d 2, byteOf d 1, byteOf d 0]
        (pad0719 256 16 (memzero256 b))
  | .cmd0710 r, b =>
      headerWrite [0xAA, 0x55, 0x00, 0x05, 0x07, 0x10, 0x00,
        byteOf r 1, byteOf r 0] b
  | .ramTest0717, b =>
      headerWrite [0xAA, 0x55, 0x00, 0x08, 0x07, 0x17,
        0x20, 0x00, 0x00, 0x0C, 0x00, 0x04] b
  | .deviceInfo010b, b =>
      headerWrite [0xAA, 0x55, 0x00, 0x02, 0x01, 0x0B] b
  | .config07a2 p, b =>
      headerWrite [0xAA, 0x55, 0x00, 0x03, 0x07, 0xA2, p % 256] b
  | .init04405804, b =>
      headerWrite [0xAA, 0x55, 0x00, 0x04, 0x04, 0x40, 0x58, 0x04] b
  | .cmd047ffe02, b =>
      headerWrite [0xAA, 0x55, 0x00, 0x04, 0x04, 0x7F, 0xFE, 0x02] b
  | .cmd04400002, b =>
      headerWrite [0xAA, 0x55, 0x00, 0x04, 0x04, 0x40, 0x00, 0x02] b
  | .readReg0713 r, b =>
      headerWrite [0xAA, 0x55, 0x00, 0x04, 0x07, 0x13,
        byteOf r 1, byteOf r 0] b

/-! ## Characterization of the cmd_07_19 padding loop (for C1 and C3) -/

/-- The step-6 padding loop never touches indices below its cursor. -/
theorem pad0719_below (fuel : Nat) : ∀ (i : Nat) (b : Buf) (j : Nat), j < i →
    pad0719 fuel i b j = b j := by
  induction fuel with
  | zero => intro i b j _; rfl
  | succ fuel ih =>
      intro i b j hj
      show (if i < 256 then pad0719 fuel (i + 6) (wr (i + 5) 2 (wr i 2 b)) else b) j = b j
      by_cases hi : i < 256
      · rw [if_pos hi, ih (i + 6) _ j (by omega)]
        simp only [wr]
        rw [if_neg (by omega), if_neg (by omega)]
      · rw [if_neg hi]

/-- Closed form of the step-6 padding loop: starting from cursor `i` with
enough fuel, index `j ∈ [i, 256)` holds `0x02` exactly when `(j - i) % 6`
is `0` or `5`, and is otherwise untouched. -/
theorem pad0719_eval (fuel : Nat) : ∀ (i : Nat) (b : Buf) (j : Nat),
    i ≤ j → j < 256 → 256 ≤ i + 6 * fuel →
    pad0719 fuel i b j =
      if (j - i) % 6 = 0 ∨ (j - i) % 6 = 5 then 2 else b j := by
  induction fuel with
  | zero => intro i b j h1 h2 h3; omega
  | succ fuel ih =>
      intro i b j h1 h2 h3
      have hi : i < 256 := by omega
      show (if i < 256 then pad0719 fuel (i + 6) (wr (i + 5) 2 (wr i 2 b)) else b) j =
        if (j - i) % 6 = 0 ∨ (j - i) % 6 = 5 then 2 else b j
      rw [if_pos hi]
      by_cases hj : j < i + 6
      · rw [pad0719_below fuel (i + 6) _ j hj]
        simp only [wr]
        by_cases h5 : j = i + 5
        · rw [if_pos h5, if_pos (by omega)]
        · rw [if_neg h5]
          by_cases h0 : j = i
          · rw [if_pos h0, if_pos (by omega)]
          · rw [if_neg h0, if_neg (by omega)]
      · rw [ih (i + 6) _ j (by omega) h2 (by omega)]
        have : (j - (i + 6)) % 6 = (j - i) % 6 := by
          have h6 : j - i = (j - (i + 6)) + 6 := by omega
          omega
        rw [this]
        have hwr : wr (i + 5) 2 (wr i 2 b) j = b j := by
          simp only [wr]
          rw [if_neg (by omega), if_neg (by omega)]
        rw [hwr]

/-! ## C1 and C3 -/

/-- Claim C3: every request built by `cmd_07_19` carries, at every index
`j ∈ [16, 256)`, the byte `0x02` when `(j - 16) % 6` is `0` or `5` and
`0x00` otherwise — the repeating `02 00 00 00 00 02` pattern, not zeros. -/
theorem c3_cmd0719_padding_pattern (addr data : Nat) (b : Buf) (j : Nat)
    (h16 : 16 ≤ j) (h256 : j < 256) :
    bdmBuild (.cmd0719 addr data) b j =
      if (j - 16) % 6 = 0 ∨ (j - 16) % 6 = 5 then 0x02 else 0x00 := by
  show headerWrite _ (pad0719 256 16 (memzero256 b)) j = _
  rw [headerWrite]
  simp only [List.length_cons, List.length_nil]
  rw [if_neg (by omega)]
  rw [pad0719_eval 256 16 (memzero256 b) j h16 h256 (by omega)]
  by_cases hp : (j - 16) % 6 = 0 ∨ (j - 16) % 6 = 5
  · rw [if_pos hp, if_pos hp]
  · rw [if_neg hp, if_neg hp, memzero256, if_pos h256]

/-- Witness for C3 at a concrete input: index 21 of a `cmd_07_19` request
holds `0x02` (it satisfies `(21-16) % 6 = 5`). -/
theorem c3_cmd0719_padding_pattern_witness :
    16 ≤ 21 ∧ 21 < 256 ∧
      bdmBuild (.cmd0719 0x20000100 0xCAFEBABE) (fun _ => 0xEE) 21 =
        if (21 - 16) % 6 = 0 ∨ (21 - 16) % 6 = 5 then 0x02 else 0x00 :=
  ⟨by decide, by decide,
    c3_cmd0719_padding_pattern 0x20000100 0xCAFEBABE (fun _ => 0xEE) 21
      (by decide) (by decide)⟩

/-- Counterexample to C1 as stated: `cmd_07_19` does NOT preserve the
bytes past its header and declared length (indices `[16, 256)`).  With the
previous response leaving `0xEE` at index 20, the outgoing request holds
`0x00` there instead. -/
theorem c1_counterexample :
    bdmBuild (.cmd0719 0x20000100 0xCAFEBABE) (fun _ => 0xEE) 20 = 0x00 ∧
      (0x00 : Nat) ≠ 0xEE := by
  constructor
  · show headerWrite _ (pad0719 256 16 (memzero256 _)) 20 = 0
    rw [headerWrite]
    simp only [List.length_cons, List.length_nil]
    rw [if_neg (by omega)]
    rw [pad0719_eval 256 16 _ 20 (by omega) (by omega) (by omega)]
    rw [if_neg (by decide)]
    rfl
  · decide

/-- Claim C1, amended: for every BDM command builder that does not write
an explicit tail padding pattern (all builders except `cmd_07_19`,
`cmd_07_12`, `cmd_07_1e`, `cmd_071e_write_sram`, `cmd_07_17_setup_window`
and `cmd_07_11_read_bdm_reg`), the outgoing request preserves, at every
index at or past `max 16 (4 + declared length)`, exactly the byte the
previous response left in the persistent buffer.  (A few builders write up
to two bytes past their declared length, but never past index 16.) -/
theorem c1_amended_persistent_buffer (X : BdmCommand) (b : Buf) (j : Nat)
    (hplain : bdmWritesPadding X = false)
    (hj : max 16 (4 + bdmDeclaredLen X) ≤ j) :
    bdmBuild X b j = b j := by
  cases X <;> simp only [bdmWritesPadding] at hplain <;>
    first
    | (exact absurd hplain (by decide))
    | (simp only [bdmDeclaredLen] at hj
       simp only [bdmBuild, headerWrite, List.length_cons, List.length_nil,
         List.length_append, List.length_map, List.length_take]
       rw [if_neg (by omega)])

/-- Witness for the amended C1 at a concrete input: the `enterMode 0xF8`
request preserves byte 100 of the previous response. -/
theorem c1_amended_persistent_buffer_witness :
    bdmWritesPadding (.enterMode 0xF8) = false ∧
      max 16 (4 + bdmDeclaredLen (.enterMode 0xF8)) ≤ 100 ∧
      bdmBuild (.enterMode 0xF8) (fun _ => 0x5A) 100 = (fun _ => (0x5A : Nat)) 100 :=
  ⟨by decide, by decide,
    c1_amended_persistent_buffer (.enterMode 0xF8) (fun _ => 0x5A) 100
      (by decide) (by decide)⟩

/-! ## USB transfer traces (C7)

`send_aa_command` performs a bulk OUT transfer of the full 256-byte buffer
and then blocks on a bulk IN transfer (10 s timeout), copying the response
back over the buffer.  `send_aa_command_no_response` performs only the OUT
transfer.  We record the transfers each function performs. -/

inductive UsbXfer where
  | outX (endpoint len : Nat)
  | inX (endpoint len : Nat)

def ENDPOINT_OUT : Nat := 0x02

def ENDPOINT_IN : Nat := 0x81

/-- Transfers performed by `send_aa_command`: OUT then IN. -/
def send_aa_command_xfers : List UsbXfer :=
  [.outX ENDPOINT_OUT 256, .inX ENDPOINT_IN 256]

/-- Transfers performed by `send_aa_command_no_response`: OUT only. -/
def send_aa_command_no_response_xfers : List UsbXfer :=
  [.outX ENDPOINT_OUT 256]

/-- `cmd_07_02_bdm_go` returns `send_aa_command(handle, cmd, 256, …)`. -/
def cmd_07_02_bdm_go_xfers : List UsbXfer := send_aa_command_xfers

/-- `cmd_bdm_resume` returns `send_aa_command_no_response(handle, cmd, 256, …)`. -/
def cmd_bdm_resume_xfers : List UsbXfer := send_aa_command_no_response_xfers

def UsbXfer.isIn : UsbXfer → Bool
  | .inX _ _ => true
  | .outX _ _ => false

/-- Counterexample to C7 as stated: the BDM GO command DOES perform a bulk
IN read (through `send_aa_command`) before returning. -/
theorem c7_counterexample :
    (cmd_07_02_bdm_go_xfers.any UsbXfer.isIn) = true := by decide

/-- Claim C7, amended: `cmd_07_02_bdm_go` sends the `07 02 FC 0C 00`
request and then, like every `send_aa_command` user, blocks on exactly one
bulk IN read of the response; the one command issued without reading a
response is `cmd_bdm_resume` (`04 40 58 04`).  The GO request bytes are
`07 02 FC 0C` at offsets 4..7. -/
theorem c7_amended_bdm_go_reads_response :
    cmd_07_02_bdm_go_xfers = [.outX ENDPOINT_OUT 256, .inX ENDPOINT_IN 256] ∧
      cmd_bdm_resume_xfers = [.outX ENDPOINT_OUT 256] ∧
      ∀ b : Buf, bdmBuild .bdmGo b 4 = 0x07 ∧ bdmBuild .bdmGo b 5 = 0x02 ∧
        bdmBuild .bdmGo b 6 = 0xFC ∧ bdmBuild .bdmGo b 7 = 0x0C :=
  ⟨rfl, rfl, fun _ => ⟨rfl, rfl, rfl, rfl⟩⟩

/-! ## RSP binary unescaping (C8)

`rsp_unescape_binary` decodes in place: a `0x7D` byte followed by another
byte emits that byte XOR `0x20`; anything else (including a trailing lone
`0x7D`) is copied through. -/

def rsp_unescape_binary : List Nat → List Nat
  | [] => []
  | [x] => [x]
  | x :: y :: rest =>
      if x = 0x7D then (y ^^^ 0x20) :: rsp_unescape_binary rest
      else x :: rsp_unescape_binary (y :: rest)

/-- Modelled from the spec: the reference RSP binary escaper, which
replaces each byte in `{0x23, 0x24, 0x2A, 0x7D}` by `0x7D` followed by the
byte XOR `0x20` (the serializer direction is not present in `src/`). -/
def rsp_escape_binary : List Nat → List Nat
  | [] => []
  | x :: rest =>
      if x = 0x23 ∨ x = 0x24 ∨ x = 0x2A ∨ x = 0x7D then
        0x7D :: (x ^^^ 0x20) :: rsp_escape_binary rest
      else x :: rsp_escape_binary rest

/-- Claim C8: unescaping the escape of any byte list gives the list back. -/
theorem c8_unescape_escape (l : List Nat) (hl : ∀ b ∈ l, b < 256) :
    rsp_unescape_binary (rsp_escape_binary l) = l := by
  induction l with
  | nil => rfl
  | cons x rest ih =>
      have hx : x < 256 := hl x (by simp)
      have hrest : ∀ b ∈ rest, b < 256 := fun b hb => hl b (by simp [hb])
      by_cases hs : x = 0x23 ∨ x = 0x24 ∨ x = 0x2A ∨ x = 0x7D
      · rw [rsp_escape_binary, if_pos hs]
        rw [rsp_unescape_binary, if_pos rfl, ih hrest]
        congr 1
        rw [Nat.xor_assoc]
        simp
      · rw [rsp_escape_binary, if_neg hs]
        have hx7d : x ≠ 0x7D := by
          intro h; exact hs (Or.inr (Or.inr (Or.inr h)))
        cases hre : rsp_escape_binary rest with
        | nil =>
            rw [hre] at ih
            have h0 : rest = [] := by
              simpa [rsp_unescape_binary] using (ih hrest).symm
            subst h0
            rfl
        | cons y t =>
            rw [rsp_unescape_binary, if_neg hx7d]
            rw [hre] at ih
            rw [ih hrest]

/-- Witness for C8 at a concrete input containing every escaped byte. -/
theorem c8_unescape_escape_witness :
    (∀ b ∈ [0x00, 0x23, 0x24, 0x2A, 0x7D, 0xFF], b < 256) ∧
      rsp_unescape_binary (rsp_escape_binary [0x00, 0x23, 0x24, 0x2A, 0x7D, 0xFF]) =
        [0x00, 0x23, 0x24, 0x2A, 0x7D, 0xFF] :=
  ⟨by decide, c8_unescape_escape [0x00, 0x23, 0x24, 0x2A, 0x7D, 0xFF] (by decide)⟩

/-! ## BDM freeze check (C5)

`cmd_bdm_freeze` sends `AA 55 00 04 04 7F FE 02` and reads the IN endpoint
with a 500 ms timeout.  A timeout is treated as "target running": the
function sets `*is_frozen = 0` and returns success.  Any other transfer
error is returned as failure.  On a received response it validates the
framing (`validate_response` with minimum length 5) and, when at least 6
bytes arrived, reports frozen exactly for status byte (offset 5) `0x00` or
`0x01`; shorter valid responses report running. -/

inductive UsbInResult where
  | timeout
  | ioError
  | ok (len : Nat) (bytes : Buf)

/-- `validate_response(buffer, length, min_length, …)` from
`openlink_protocol.c`: minimum length, magic `99 66` or `88 A5`, status
byte `0xEE` at offset 4 (requires length ≥ 5 for the status check). -/
def validate_response (bytes : Buf) (len minLength : Nat) : Bool :=
  if len < minLength then false
  else if bytes 0 = 0x99 ∧ bytes 1 = 0x66 then
    if 5 ≤ len ∧ bytes 4 = 0xEE then true else false
  else if bytes 0 = 0x88 ∧ bytes 1 = 0xA5 then
    if 5 ≤ len ∧ bytes 4 = 0xEE then true else false
  else false

/-- `cmd_bdm_freeze` after a successful OUT transfer: `none` models the
`-1` error return, `some frozen` models returning `0` with `*is_frozen`
set. -/
def cmd_bdm_freeze (resp : UsbInResult) : Option Bool :=
  match resp with
  | .timeout => some false
  | .ioError => none
  | .ok len bytes =>
      if validate_response bytes len 5 = false then none
      else if 6 ≤ len then
        if bytes 5 = 0x01 ∨ bytes 5 = 0x00 then some true else some false
      else some false

/-- Claim C5: the freeze check reports halted exactly for status byte
`0x00` or `0x01` (so `0x88` and everything else reads as running), and a
timeout on the IN endpoint is surfaced as success with "not frozen". -/
theorem c5_freeze_check (len : Nat) (bytes : Buf)
    (hvalid : validate_response bytes len 5 = true) (hlen : 6 ≤ len) :
    cmd_bdm_freeze (.ok len bytes) =
        some (decide (bytes 5 = 0x00 ∨ bytes 5 = 0x01)) ∧
      cmd_bdm_freeze .timeout = some false := by
  constructor
  · rw [cmd_bdm_freeze]
    rw [hvalid]
    simp only [Bool.true_eq_false, if_false, if_pos hlen]
    by_cases h : bytes 5 = 0x01 ∨ bytes 5 = 0x00
    · rw [if_pos h]
      have : bytes 5 = 0x00 ∨ bytes 5 = 0x01 := h.symm
      simp [this]
    · rw [if_neg h]
      have : ¬(bytes 5 = 0x00 ∨ bytes 5 = 0x01) := fun hc => h hc.symm
      simp [this]
  · rfl

/-- Witness for C5 at a concrete response `99 66 00 03 EE 88` (status
`0x88`, i.e. running). -/
theorem c5_freeze_check_witness :
    validate_response (fun j => [0x99, 0x66, 0x00, 0x03, 0xEE, 0x88].getD j 0) 7 5 = true ∧
      6 ≤ 7 ∧
      (cmd_bdm_freeze (.ok 7 (fun j => [0x99, 0x66, 0x00, 0x03, 0xEE, 0x88].getD j 0)) =
          some (decide ((fun j => ([0x99, 0x66, 0x00, 0x03, 0xEE, 0x88].getD j 0)) 5 = 0x00 ∨
            (fun j => ([0x99, 0x66, 0x00, 0x03, 0xEE, 0x88].getD j 0)) 5 = 0x01)) ∧
        cmd_bdm_freeze .timeout = some false) :=
  ⟨by decide, by decide,
    c5_freeze_check 7 (fun j => [0x99, 0x66, 0x00, 0x03, 0xEE, 0x88].getD j 0)
      (by decide) (by decide)⟩

/-! ## Single-step counter (C6)

`handle_step` keeps the global `g_step_count`.  If it is ≥ 2 on entry,
`reset_single_step_capability` runs first: it reads the PC, enters modes
`F8`, `F0`, `F8`, restores the PC and zeroes the counter.  The handler
then reads the CSR (early return on failure), writes it back with SSM set
(early return on failure), issues BDM GO, and finally increments the
counter. -/

inductive StepAct where
  | readPC
  | stepEnterMode (m : Nat)
  | writePC
  | readCSR
  | writeCSR
  | goSSM (counterAtGo : Nat)

/-- The action prefix performed by `reset_single_step_capability`:
PC read, `F8 → F0 → F8`, PC restore. -/
def resetStepActs : List StepAct :=
  [.readPC, .stepEnterMode 0xF8, .stepEnterMode 0xF0, .stepEnterMode 0xF8, .writePC]

/-- One `handle_step` call: given the entry counter and whether the CSR
read/write succeed, return the counter after the call and the action list
performed (GO is tagged with the counter value current when it is
issued). -/
def handle_step (c : Nat) (csrReadOk csrWriteOk : Bool) : Nat × List StepAct :=
  let pre := if 2 ≤ c then resetStepActs else []
  let c1 := if 2 ≤ c then 0 else c
  if csrReadOk = false then (c1, pre ++ [.readCSR])
  else if csrWriteOk = false then (c1, pre ++ [.readCSR, .writeCSR])
  else (c1 + 1, pre ++ [.readCSR, .writeCSR, .goSSM c1])

/-- Run a sequence of step requests, collecting all actions. -/
def runSteps : Nat → List (Bool × Bool) → Nat × List StepAct
  | c, [] => (c, [])
  | c, f :: fs =>
      let r := handle_step c f.1 f.2
      let rest := runSteps r.1 fs
      (rest.1, r.2 ++ rest.2)

/-- A GO-with-SSM action at counter value ≥ 2 never occurs in `acts`. -/
def goOnlyBelow2 : List StepAct → Prop
  | [] => True
  | .goSSM v :: rest => v ≤ 1 ∧ goOnlyBelow2 rest
  | _ :: rest => goOnlyBelow2 rest

theorem goOnlyBelow2_append (l1 l2 : List StepAct)
    (h1 : goOnlyBelow2 l1) (h2 : goOnlyBelow2 l2) : goOnlyBelow2 (l1 ++ l2) := by
  induction l1 with
  | nil => simpa
  | cons a rest ih =>
      cases a <;> simp only [goOnlyBelow2, List.cons_append] at h1 ⊢ <;>
        first
        | exact ih h1
        | exact ⟨h1.1, ih h1.2⟩

theorem handle_step_counter_le (c : Nat) (ro wo : Bool) (hc : c ≤ 2) :
    (handle_step c ro wo).1 ≤ 2 := by
  rw [handle_step]
  by_cases h2 : 2 ≤ c <;> by_cases hro : ro = false <;> by_cases hwo : wo = false <;>
    simp [h2, hro, hwo] <;> omega

theorem handle_step_go_le (c : Nat) (ro wo : Bool) (hc : c ≤ 2) :
    goOnlyBelow2 (handle_step c ro wo).2 := by
  rw [handle_step]
  by_cases h2 : 2 ≤ c <;> by_cases hro : ro = false <;> by_cases hwo : wo = false <;>
    simp [h2, hro, hwo, resetStepActs, goOnlyBelow2] <;> omega

/-- Claim C6: starting from any counter value ≤ 2 (the program starts at
0), every sequence of step requests keeps the counter in `{0, 1, 2}`,
every GO-with-SSM is issued with counter value at most 1, and a step
entered with counter ≥ 2 performs the `F8 → F0 → F8` reset sequence (with
the PC read before and restored after) before anything else. -/
theorem c6_step_counter (fs : List (Bool × Bool)) (c : Nat) (hc : c ≤ 2) :
    (runSteps c fs).1 ≤ 2 ∧ goOnlyBelow2 (runSteps c fs).2 ∧
      ∀ c0 ro wo, 2 ≤ c0 →
        (handle_step c0 ro wo).2.take 5 = resetStepActs := by
  refine ⟨?_, ?_, ?_⟩
  · induction fs generalizing c with
    | nil => exact hc
    | cons f fs ih =>
        exact ih _ (handle_step_counter_le c f.1 f.2 hc)
  · induction fs generalizing c with
    | nil => simp [runSteps, goOnlyBelow2]
    | cons f fs ih =>
        refine goOnlyBelow2_append _ _ (handle_step_go_le c f.1 f.2 hc) ?_
        exact ih _ (handle_step_counter_le c f.1 f.2 hc)
  · intro c0 ro wo h2
    rw [handle_step]
    by_cases hro : ro = false <;> by_cases hwo : wo = false <;>
      simp [h2, hro, hwo, resetStepActs]

/-- Witness for C6: three successful steps from the initial counter 0. -/
theorem c6_step_counter_witness :
    (0 : Nat) ≤ 2 ∧
      ((runSteps 0 [(true, true), (true, true), (true, true)]).1 ≤ 2 ∧
        goOnlyBelow2 (runSteps 0 [(true, true), (true, true), (true, true)]).2 ∧
        ∀ c0 ro wo, 2 ≤ c0 →
          (handle_step c0 ro wo).2.take 5 = resetStepActs) :=
  ⟨by decide, c6_step_counter [(true, true), (true, true), (true, true)] 0 (by decide)⟩

/-! ## Memory read packet handler (C9, C10)

`handle_read_memory` parses `addr,len` with `strtoul(…, 16)`, clamps `len`
to `MAX_PACKET_SIZE / 2 = 2048`, reads that many bytes from the target and
replies with their lowercase hex rendering (`bytes_to_hex`, i.e.
`sprintf("%02x")` per byte). -/

def hexDigitVal (c : Char) : Option Nat :=
  if '0' ≤ c ∧ c ≤ '9' then some (c.toNat - '0'.toNat)
  else if 'a' ≤ c ∧ c ≤ 'f' then some (c.toNat - 'a'.toNat + 10)
  else if 'A' ≤ c ∧ c ≤ 'F' then some (c.toNat - 'A'.toNat + 10)
  else none

def parseHexDigits : List Char → Nat → Nat
  | [], acc => acc
  | c :: t, acc =>
      match hexDigitVal c with
      | some v => parseHexDigits t (acc * 16 + v)
      | none => acc

/-- `strtoul(s, NULL, 16)`: skip leading spaces, optional `0x`/`0X`
prefix, then hex digits up to the first non-digit. -/
def strtoul16 (s : List Char) : Nat :=
  match s.dropWhile (· = ' ') with
  | '0' :: 'x' :: t => parseHexDigits t 0
  | '0' :: 'X' :: t => parseHexDigits t 0
  | t => parseHexDigits t 0

/-- `bytes_to_hex`: each byte becomes two lowercase hex characters. -/
def bytes_to_hex (l : List Nat) : String :=
  String.mk (l.foldr (fun b acc => Nat.digitChar (b / 16) :: Nat.digitChar (b % 16) :: acc) [])

def MAX_PACKET_SIZE : Nat := 4096

/-- The reply payload `handle_read_memory` builds once `addr` and `len`
are parsed: clamp `len` to `MAX_PACKET_SIZE / 2`, read that many bytes
(each a `uint8_t`) starting at `addr`, render as hex. -/
def read_mem_reply (mem : Nat → Nat) (addr len0 : Nat) : String :=
  let len := if len0 > MAX_PACKET_SIZE / 2 then MAX_PACKET_SIZE / 2 else len0
  bytes_to_hex ((List.range len).map (fun i => mem (addr + i) % 256))

/-- `handle_read_memory` on the packet body after `m`: error (`E01`,
modelled as `none`) when there is no comma, otherwise the hex reply. -/
def handle_read_memory (mem : Nat → Nat) (data : String) : Option String :=
  let cs := data.toList
  if cs.contains ',' then
    some (read_mem_reply mem (strtoul16 cs)
      (strtoul16 ((cs.dropWhile (· ≠ ',')).drop 1)))
  else none

/-- Counterexample to C9 as stated: with all-0xFF memory the reply to
`m 0,10` is NOT the 20-character string `"ffffffffffffffffffff"` (the
length field is hex, so `10` requests 0x10 = 16 bytes). -/
theorem c9_counterexample :
    handle_read_memory (fun _ => 0xFF) "0,10" ≠ some "ffffffffffffffffffff" := by
  decide

/-- Claim C9, amended: with all-0xFF memory the reply to `m 0,10` is the
32-character string of sixteen `ff` pairs, because the length `10` is
parsed as hex (0x10 = 16 bytes). -/
theorem c9_amended_erased_flash_read :
    handle_read_memory (fun _ => 0xFF) "0,10" =
      some "ffffffffffffffffffffffffffffffff" := by
  decide

theorem bytes_to_hex_length (l : List Nat) :
    (bytes_to_hex l).length = 2 * l.length := by
  induction l with
  | nil => rfl
  | cons b t ih =>
      show (bytes_to_hex (b :: t)).length = 2 * (t.length + 1)
      have : bytes_to_hex (b :: t) =
          String.mk (Nat.digitChar (b / 16) :: Nat.digitChar (b % 16) ::
            (bytes_to_hex t).data) := rfl
      rw [this]
      simp only [String.length, List.length_cons]
      have ht : (bytes_to_hex t).data.length = 2 * t.length := ih
      omega

/-! ## vFlash write buffering and flash programming (C2)

`handle_v_command`'s `vFlashWrite` branch unescapes the binary payload,
bounds-checks it against the 256 KB flash, lazily allocates a flash-sized
staging buffer pre-filled with `0xFF` whose base is the first write's
address, and copies the payload at offset `addr - base` (32-bit
arithmetic), extending `write_len`.  `vFlashDone` programs
`buffer[0 .. write_len)` at `base` through `gpl_flash_program`, which
chunks into ≤ 1024-byte pieces. -/

def FLASH_SIZE : Nat := 0x40000

def U32 : Nat := 2 ^ 32

/-- 32-bit unsigned subtraction `a - b` as performed on `uint32_t`. -/
def u32sub (a b : Nat) : Nat := (a + U32 - b % U32) % U32

structure VFlashState where
  writeBuffer : Option Buf
  writeAddr : Nat
  writeLen : Nat
  writeCapacity : Nat

def vflashEmpty : VFlashState := ⟨none, 0, 0, 0⟩

/-- `memcpy(buf + off, data, data.length)` viewed as a buffer update. -/
def overlayAt (buf : Buf) (off : Nat) (data : List Nat) : Buf :=
  fun j => if off ≤ j ∧ j < off + data.length then data.getD (j - off) 0 else buf j

/-- The `vFlashWrite` branch of `handle_v_command`, after the address and
the raw (still escaped) binary payload are parsed.  `none` models an error
reply. -/
def vFlashWrite (st : VFlashState) (addr : Nat) (binData : List Nat) :
    Option VFlashState :=
  if binData.length = 0 then some st
  else
    let unescaped := rsp_unescape_binary binData
    if FLASH_SIZE ≤ addr ∨ FLASH_SIZE < addr + unescaped.length then none
    else
      let st1 : VFlashState :=
        match st.writeBuffer with
        | none => ⟨some (fun _ => 0xFF), addr, 0, FLASH_SIZE⟩
        | some _ => st
      match st1.writeBuffer with
      | none => none
      | some buf =>
          let offset := u32sub addr st1.writeAddr
          if st1.writeCapacity < offset + unescaped.length then none
          else some { st1 with
            writeBuffer := some (overlayAt buf offset unescaped),
            writeLen :=
              if st1.writeLen < offset + unescaped.length then
                offset + unescaped.length
              else st1.writeLen }

/-- Fold a list of `vFlashWrite` packets through the session state. -/
def runVFlash : VFlashState → List (Nat × List Nat) → Option VFlashState
  | st, [] => some st
  | st, w :: ws =>
      match vFlashWrite st w.1 w.2 with
      | none => none
      | some st1 => runVFlash st1 ws

/-- The `(address, bytes)` image that `vFlashDone` hands to
`flash_program_region` (`none` when nothing is programmed). -/
def vFlashDoneImage (st : VFlashState) : Option (Nat × List Nat) :=
  match st.writeBuffer with
  | some buf =>
      if 0 < st.writeLen then
        some (st.writeAddr, (List.range st.writeLen).map buf)
      else none
  | none => none

/-- `gpl_flash_program`: program `data` at `addr` in ≤ 1024-byte chunks
(the flashloader data buffer size), each chunk overwriting its bytes of
the flash image. -/
def gpl_flash_program (addr : Nat) (data : List Nat) (flash : Buf) : Buf :=
  if h : data = [] then flash
  else
    gpl_flash_program (addr + (data.take 1024).length) (data.drop 1024)
      (overlayAt flash addr (data.take 1024))
termination_by data.length
decreasing_by
  simp only [List.length_drop]
  have : data.length ≠ 0 := fun hc => h (List.length_eq_zero.mp hc)
  omega

/-- Spec-side image: fill everywhere with `0xFF` and overlay every write
payload at its stated address, in packet order. -/
def specOverlay (ws : List (Nat × List Nat)) : Buf :=
  ws.foldl (fun m w => overlayAt m w.1 w.2) (fun _ => 0xFF)

/-- Minimum written address of a write sequence. -/
def vfMinAddr : List (Nat × List Nat) → Nat
  | [] => 0
  | w :: t => t.foldl (fun m x => min m x.1) w.1

/-- Maximum end address (`addr + length`) of a write sequence. -/
def vfMaxEnd : List (Nat × List Nat) → Nat
  | [] => 0
  | w :: t => t.foldl (fun m x => max m (x.1 + x.2.length)) (w.1 + w.2.length)

theorem overlayAt_nil (f : Buf) (a : Nat) : overlayAt f a [] = f := by
  funext j
  simp [overlayAt]

/-- Chunked programming equals a single overlay of the whole image. -/
theorem gpl_flash_program_eq (addr : Nat) (data : List Nat) (flash : Buf) :
    gpl_flash_program addr data flash = overlayAt flash addr data := by
  induction addr, data, flash using gpl_flash_program.induct with
  | case1 addr flash =>
      rw [gpl_flash_program]
      simp [overlayAt_nil]
  | case2 addr data flash hne ih =>
      rw [gpl_flash_program, dif_neg hne, ih]
      funext j
      simp only [overlayAt, List.length_drop, List.length_take]
      by_cases h1 : addr ≤ j ∧ j < addr + data.length
      · rw [if_pos h1]
        by_cases h2 : addr + min 1024 data.length ≤ j ∧
            j < addr + min 1024 data.length + (data.length - 1024)
        · rw [if_pos (by omega)]
          rw [List.getD_eq_getElem?_getD, List.getD_eq_getElem?_getD]
          rw [List.getElem?_drop]
          congr 2
          omega
        · rw [if_neg (by omega)]
          rw [if_pos (by omega)]
          rw [List.getD_eq_getElem?_getD, List.getD_eq_getElem?_getD]
          rw [List.getElem?_take_of_lt (by omega)]
      · rw [if_neg h1]
        rw [if_neg (by omega), if_neg (by omega)]

theorem rsp_unescape_binary_ne_nil (l : List Nat) (h : l ≠ []) :
    rsp_unescape_binary l ≠ [] := by
  match l with
  | [] => exact absurd rfl h
  | [x] => simp [rsp_unescape_binary]
  | x :: y :: rest =>
      rw [rsp_unescape_binary]
      by_cases hx : x = 0x7D <;> simp [hx]

theorem vfMinAddr_append (ws : List (Nat × List Nat)) (w : Nat × List Nat)
    (h : ws ≠ []) : vfMinAddr (ws ++ [w]) = min (vfMinAddr ws) w.1 := by
  match ws with
  | [] => exact absurd rfl h
  | w0 :: t =>
      show vfMinAddr (w0 :: (t ++ [w])) = _
      rw [vfMinAddr, vfMinAddr, List.foldl_append]
      rfl

theorem vfMaxEnd_append (ws : List (Nat × List Nat)) (w : Nat × List Nat)
    (h : ws ≠ []) :
    vfMaxEnd (ws ++ [w]) = max (vfMaxEnd ws) (w.1 + w.2.length) := by
  match ws with
  | [] => exact absurd rfl h
  | w0 :: t =>
      show vfMaxEnd (w0 :: (t ++ [w])) = _
      rw [vfMaxEnd, vfMaxEnd, List.foldl_append]
      rfl

theorem specOverlay_append (ws : List (Nat × List Nat)) (w : Nat × List Nat) :
    specOverlay (ws ++ [w]) = overlayAt (specOverlay ws) w.1 w.2 := by
  rw [specOverlay, specOverlay, List.foldl_append]
  rfl

/-- Invariant of the vFlash staging state after the (nonempty, unescaped)
write sequence `ws` has been accepted. -/
def VFInv (ws : List (Nat × List Nat)) (st : VFlashState) : Prop :=
  st.writeAddr = vfMinAddr ws ∧
  st.writeCapacity = FLASH_SIZE ∧
  st.writeLen = vfMaxEnd ws - vfMinAddr ws ∧
  vfMinAddr ws < vfMaxEnd ws ∧
  vfMaxEnd ws ≤ FLASH_SIZE ∧
  vfMinAddr ws < FLASH_SIZE ∧
  ∃ buf, st.writeBuffer = some buf ∧
    ∀ j, buf j = specOverlay ws (vfMinAddr ws + j)

theorem vFlashWrite_init (a : Nat) (d : List Nat) (hd : d ≠ [])
    (st2 : VFlashState) (h : vFlashWrite vflashEmpty a d = some st2) :
    VFInv [(a, rsp_unescape_binary d)] st2 := by
  have hdlen : ¬(d.length = 0) := fun hc => hd (List.length_eq_zero.mp hc)
  have hun : rsp_unescape_binary d ≠ [] := rsp_unescape_binary_ne_nil d hd
  have hunlen : 0 < (rsp_unescape_binary d).length :=
    Nat.pos_of_ne_zero (fun hc => hun (List.length_eq_zero.mp hc))
  rw [vFlashWrite] at h
  rw [if_neg hdlen] at h
  by_cases hrange : FLASH_SIZE ≤ a ∨
      FLASH_SIZE < a + (rsp_unescape_binary d).length
  · rw [if_pos hrange] at h
    exact absurd h (by simp)
  · rw [if_neg hrange] at h
    simp only [vflashEmpty] at h
    have hoff : u32sub a a = 0 := by
      simp only [u32sub, U32]
      have ha : a < FLASH_SIZE := by
        simp only [FLASH_SIZE]
        push_neg at hrange
        simpa [FLASH_SIZE] using hrange.1
      have : a % 2 ^ 32 = a := Nat.mod_eq_of_lt (by simp [FLASH_SIZE] at ha; omega)
      omega
    rw [hoff] at h
    by_cases hcap : FLASH_SIZE < 0 + (rsp_unescape_binary d).length
    · rw [if_pos hcap] at h
      exact absurd h (by simp)
    · rw [if_neg hcap] at h
      have hst2 := (Option.some.inj h).symm
      subst hst2
      push_neg at hrange
      refine ⟨rfl, rfl, ?_, ?_, ?_, ?_, ?_⟩
      · show (if 0 < 0 + (rsp_unescape_binary d).length then
            0 + (rsp_unescape_binary d).length else 0) = _
        rw [if_pos (by omega)]
        show 0 + (rsp_unescape_binary d).length =
          vfMaxEnd [(a, rsp_unescape_binary d)] - vfMinAddr [(a, rsp_unescape_binary d)]
        simp [vfMaxEnd, vfMinAddr]
      · show vfMinAddr [(a, rsp_unescape_binary d)] < vfMaxEnd [(a, rsp_unescape_binary d)]
        simp only [vfMaxEnd, vfMinAddr, List.foldl_nil]
        omega
      · simpa [vfMaxEnd] using hrange.2
      · simpa [vfMinAddr] using hrange.1
      · refine ⟨overlayAt (fun _ => 0xFF) 0 (rsp_unescape_binary d), rfl, ?_⟩
        intro j
        show overlayAt (fun _ => 0xFF) 0 (rsp_unescape_binary d) j =
          specOverlay [(a, rsp_unescape_binary d)] (vfMinAddr [(a, rsp_unescape_binary d)] + j)
        have hmin : vfMinAddr [(a, rsp_unescape_binary d)] = a := rfl
        have hspec : specOverlay [(a, rsp_unescape_binary d)] =
            overlayAt (fun _ => 0xFF) a (rsp_unescape_binary d) := rfl
        rw [hmin, hspec]
        simp only [overlayAt]
        by_cases hj : j < (rsp_unescape_binary d).length
        · rw [if_pos (by omega), if_pos (by omega)]
          congr 1
          omega
        · rw [if_neg (by omega), if_neg (by omega)]

theorem vFlashWrite_step (ws : List (Nat × List Nat)) (st : VFlashState)
    (a : Nat) (d : List Nat) (st2 : VFlashState)
    (hinv : VFInv ws st) (hws : ws ≠ []) (hd : d ≠ [])
    (h : vFlashWrite st a d = some st2) :
    VFInv (ws ++ [(a, rsp_unescape_binary d)]) st2 := by
  obtain ⟨hA, hC, hL, hmm, hmf, hminf, buf, hbuf, hbufj⟩ := hinv
  have hdlen : ¬(d.length = 0) := fun hc => hd (List.length_eq_zero.mp hc)
  have hun : rsp_unescape_binary d ≠ [] := rsp_unescape_binary_ne_nil d hd
  have hunlen : 0 < (rsp_unescape_binary d).length :=
    Nat.pos_of_ne_zero (fun hc => hun (List.length_eq_zero.mp hc))
  rw [vFlashWrite] at h
  rw [if_neg hdlen] at h
  by_cases hrange : FLASH_SIZE ≤ a ∨
      FLASH_SIZE < a + (rsp_unescape_binary d).length
  · rw [if_pos hrange] at h
    exact absurd h (by simp)
  rw [if_neg hrange] at h
  push_neg at hrange
  rw [hbuf] at h
  simp only [] at h
  rw [hbuf] at h
  simp only [] at h
  by_cases hcap : st.writeCapacity < u32sub a st.writeAddr +
      (rsp_unescape_binary d).length
  · rw [if_pos hcap] at h
    exact absurd h (by simp)
  rw [if_neg hcap] at h
  push_neg at hcap
  have hFS : FLASH_SIZE = 2 ^ 18 := by simp [FLASH_SIZE]
  have hwa_lt : st.writeAddr < FLASH_SIZE := hA ▸ hminf
  have hwa_le : st.writeAddr ≤ a := by
    by_contra hlt
    push_neg at hlt
    have hmod : st.writeAddr % U32 = st.writeAddr :=
      Nat.mod_eq_of_lt (by simp only [U32]; omega)
    have hoffeq : u32sub a st.writeAddr = a + U32 - st.writeAddr := by
      simp only [u32sub, hmod]
      exact Nat.mod_eq_of_lt (by simp only [U32]; omega)
    rw [hC] at hcap
    rw [hoffeq] at hcap
    simp only [U32] at hcap
    omega
  have hoff : u32sub a st.writeAddr = a - st.writeAddr := by
    have hmod : st.writeAddr % U32 = st.writeAddr :=
      Nat.mod_eq_of_lt (by simp only [U32]; omega)
    simp only [u32sub, hmod]
    have : a + U32 - st.writeAddr = (a - st.writeAddr) + U32 := by omega
    rw [this, Nat.add_mod_right]
    exact Nat.mod_eq_of_lt (by simp only [U32]; omega)
  rw [hoff] at h
  have hst2 := (Option.some.inj h).symm
  subst hst2
  have hminapp : vfMinAddr (ws ++ [(a, rsp_unescape_binary d)]) = vfMinAddr ws := by
    rw [vfMinAddr_append ws _ hws]
    show min (vfMinAddr ws) a = vfMinAddr ws
    rw [hA] at hwa_le
    omega
  have hmaxapp : vfMaxEnd (ws ++ [(a, rsp_unescape_binary d)]) =
      max (vfMaxEnd ws) (a + (rsp_unescape_binary d).length) :=
    vfMaxEnd_append ws _ hws
  refine ⟨?_, ?_, ?_, ?_, ?_, ?_, ?_⟩
  · show st.writeAddr = _
    rw [hminapp, hA]
  · exact hC
  · show (if st.writeLen < a - st.writeAddr + (rsp_unescape_binary d).length then
        a - st.writeAddr + (rsp_unescape_binary d).length else st.writeLen) = _
    rw [hminapp, hmaxapp, hL, hA]
    rw [hA] at hwa_le
    by_cases hcmp : vfMaxEnd ws - vfMinAddr ws <
        a - vfMinAddr ws + (rsp_unescape_binary d).length
    · rw [if_pos hcmp]
      omega
    · rw [if_neg hcmp]
      omega
  · rw [hminapp, hmaxapp]
    omega
  · rw [hmaxapp]
    have : a + (rsp_unescape_binary d).length ≤ FLASH_SIZE := hrange.2
    omega
  · rw [hminapp]
    exact hminf
  · refine ⟨overlayAt buf (a - st.writeAddr) (rsp_unescape_binary d), rfl, ?_⟩
    intro j
    rw [hminapp, specOverlay_append]
    show overlayAt buf (a - st.writeAddr) (rsp_unescape_binary d) j =
      overlayAt (specOverlay ws) a (rsp_unescape_binary d) (vfMinAddr ws + j)
    simp only [overlayAt]
    rw [hA] at hwa_le
    rw [hA]
    by_cases hj : a - vfMinAddr ws ≤ j ∧
        j < a - vfMinAddr ws + (rsp_unescape_binary d).length
    · rw [if_pos hj, if_pos (by omega)]
      congr 1
      omega
    · rw [if_neg hj, if_neg (by omega)]
      rw [hbufj j]

/-- Unescaped view of a raw write sequence. -/
def vfWrites (raws : List (Nat × List Nat)) : List (Nat × List Nat) :=
  raws.map (fun r => (r.1, rsp_unescape_binary r.2))

theorem runVFlash_inv (raws : List (Nat × List Nat)) :
    ∀ (ws : List (Nat × List Nat)) (st0 st : VFlashState),
    VFInv ws st0 → ws ≠ [] → (∀ r ∈ raws, r.2 ≠ []) →
    runVFlash st0 raws = some st →
    VFInv (ws ++ vfWrites raws) st := by
  induction raws with
  | nil =>
      intro ws st0 st hinv hws _ hrun
      have : st0 = st := Option.some.inj hrun
      subst this
      simpa [vfWrites] using hinv
  | cons r t ih =>
      intro ws st0 st hinv hws hne hrun
      rw [runVFlash] at hrun
      cases hw : vFlashWrite st0 r.1 r.2 with
      | none =>
          rw [hw] at hrun
          exact absurd hrun (by simp)
      | some st1 =>
          rw [hw] at hrun
          have hinv1 := vFlashWrite_step ws st0 r.1 r.2 st1 hinv hws
            (hne r (by simp)) hw
          have hres := ih (ws ++ [(r.1, rsp_unescape_binary r.2)]) st1 st hinv1
            (by simp) (fun x hx => hne x (by simp [hx])) hrun
          rw [List.append_assoc] at hres
          simpa [vfWrites] using hres

/-- Claim C2: if every `vFlashWrite` in a session succeeds (with nonempty
payloads), the image committed at `vFlashDone` is exactly: base address =
the minimum written address, contents = `[min_addr, max_addr)` filled with
`0xFF` and overlaid, in packet order, with each unescaped payload at its
stated address; and programming that image through `gpl_flash_program`'s
1024-byte chunking writes exactly those bytes over `[min_addr, max_addr)`
of the flash. -/
theorem c2_vflash_image (raws : List (Nat × List Nat))
    (hne : ∀ r ∈ raws, r.2 ≠ []) (hnn : raws ≠ [])
    (hsucc : (runVFlash vflashEmpty raws).isSome = true) :
    (runVFlash vflashEmpty raws).bind vFlashDoneImage =
        some (vfMinAddr (vfWrites raws),
          (List.range (vfMaxEnd (vfWrites raws) - vfMinAddr (vfWrites raws))).map
            (fun o => specOverlay (vfWrites raws) (vfMinAddr (vfWrites raws) + o))) ∧
      ∀ (flash : Buf) (j : Nat), vfMinAddr (vfWrites raws) ≤ j →
        j < vfMaxEnd (vfWrites raws) →
        gpl_flash_program (vfMinAddr (vfWrites raws))
          ((List.range (vfMaxEnd (vfWrites raws) - vfMinAddr (vfWrites raws))).map
            (fun o => specOverlay (vfWrites raws) (vfMinAddr (vfWrites raws) + o)))
          flash j = specOverlay (vfWrites raws) j := by
  obtain ⟨st, hst⟩ := Option.isSome_iff_exists.mp hsucc
  have hinvfull : VFInv (vfWrites raws) st := by
    match raws, hnn with
    | r :: t, _ =>
        rw [runVFlash] at hst
        cases hw : vFlashWrite vflashEmpty r.1 r.2 with
        | none =>
            rw [hw] at hst
            exact absurd hst (by simp)
        | some st1 =>
            rw [hw] at hst
            have hinv1 := vFlashWrite_init r.1 r.2 (hne r (by simp)) st1 hw
            have hres := runVFlash_inv t [(r.1, rsp_unescape_binary r.2)] st1 st
              hinv1 (by simp) (fun x hx => hne x (by simp [hx])) hst
            simpa [vfWrites] using hres
  obtain ⟨hA, hC, hL, hmm, hmf, hminf, buf, hbuf, hbufj⟩ := hinvfull
  constructor
  · rw [hst]
    show vFlashDoneImage st = _
    rw [vFlashDoneImage]
    rw [hbuf]
    simp only []
    rw [if_pos (by omega)]
    rw [hA, hL]
    congr 1
    refine congrArg _ ?_
    exact List.map_congr_left (fun o _ => hbufj o)
  · intro flash j hj1 hj2
    rw [gpl_flash_program_eq]
    rw [overlayAt]
    simp only [List.length_map, List.length_range]
    rw [if_pos (by omega)]
    rw [List.getD_eq_getElem?_getD, List.getElem?_map]
    rw [List.getElem?_range (by omega)]
    simp only [Option.map_some', Option.getD_some]
    congr 1
    omega

/-- Witness for C2: two successful writes, `11 22` at 0 and `33` at 2. -/
theorem c2_vflash_image_witness :
    (∀ r ∈ [((0 : Nat), [(0x11 : Nat), 0x22]), (2, [0x33])], r.2 ≠ []) ∧
      ([((0 : Nat), [(0x11 : Nat), 0x22]), (2, [0x33])] ≠ []) ∧
      ((runVFlash vflashEmpty [(0, [0x11, 0x22]), (2, [0x33])]).isSome = true) ∧
      ((runVFlash vflashEmpty [(0, [0x11, 0x22]), (2, [0x33])]).bind vFlashDoneImage =
          some (vfMinAddr (vfWrites [(0, [0x11, 0x22]), (2, [0x33])]),
            (List.range (vfMaxEnd (vfWrites [(0, [0x11, 0x22]), (2, [0x33])]) -
                vfMinAddr (vfWrites [(0, [0x11, 0x22]), (2, [0x33])]))).map
              (fun o => specOverlay (vfWrites [(0, [0x11, 0x22]), (2, [0x33])])
                (vfMinAddr (vfWrites [(0, [0x11, 0x22]), (2, [0x33])]) + o))) ∧
        ∀ (flash : Buf) (j : Nat),
          vfMinAddr (vfWrites [(0, [0x11, 0x22]), (2, [0x33])]) ≤ j →
          j < vfMaxEnd (vfWrites [(0, [0x11, 0x22]), (2, [0x33])]) →
          gpl_flash_program (vfMinAddr (vfWrites [(0, [0x11, 0x22]), (2, [0x33])]))
            ((List.range (vfMaxEnd (vfWrites [(0, [0x11, 0x22]), (2, [0x33])]) -
                vfMinAddr (vfWrites [(0, [0x11, 0x22]), (2, [0x33])]))).map
              (fun o => specOverlay (vfWrites [(0, [0x11, 0x22]), (2, [0x33])])
                (vfMinAddr (vfWrites [(0, [0x11, 0x22]), (2, [0x33])]) + o)))
            flash j = specOverlay (vfWrites [(0, [0x11, 0x22]), (2, [0x33])]) j) :=
  ⟨by decide, by decide, by rfl,
    c2_vflash_image [(0, [0x11, 0x22]), (2, [0x33])] (by decide) (by decide) (by rfl)⟩

/-! ## qCRC: table-driven xcrc32 versus the bitwise CRC-32 (C4)

`xcrc32` in `m68k-gdbserver.c` is the libiberty table-driven CRC:
`crc = (crc << 8) ^ crc32_table[((crc >> 24) ^ byte) & 255]` on `uint32_t`.
The reference definition is the bitwise MSB-first CRC with polynomial
`0x04C11DB7` and no final XOR. -/

def crc32_table : List Nat := [
  0x00000000, 0x04c11db7, 0x09823b6e, 0x0d4326d9,
  0x130476dc, 0x17c56b6b, 0x1a864db2, 0x1e475005,
  0x2608edb8, 0x22c9f00f, 0x2f8ad6d6, 0x2b4bcb61,
  0x350c9b64, 0x31cd86d3, 0x3c8ea00a, 0x384fbdbd,
  0x4c11db70, 0x48d0c6c7, 0x4593e01e, 0x4152fda9,
  0x5f15adac, 0x5bd4b01b, 0x569796c2, 0x52568b75,
  0x6a1936c8, 0x6ed82b7f, 0x639b0da6, 0x675a1011,
  0x791d4014, 0x7ddc5da3, 0x709f7b7a, 0x745e66cd,
  0x9823b6e0, 0x9ce2ab57, 0x91a18d8e, 0x95609039,
  0x8b27c03c, 0x8fe6dd8b, 0x82a5fb52, 0x8664e6e5,
  0xbe2b5b58, 0xbaea46ef, 0xb7a96036, 0xb3687d81,
  0xad2f2d84, 0xa9ee3033, 0xa4ad16ea, 0xa06c0b5d,
  0xd4326d90, 0xd0f37027, 0xddb056fe, 0xd9714b49,
  0xc7361b4c, 0xc3f706fb, 0xceb42022, 0xca753d95,
  0xf23a8028, 0xf6fb9d9f, 0xfbb8bb46, 0xff79a6f1,
  0xe13ef6f4, 0xe5ffeb43, 0xe8bccd9a, 0xec7dd02d,
  0x34867077, 0x30476dc0, 0x3d044b19, 0x39c556ae,
  0x278206ab, 0x23431b1c, 0x2e003dc5, 0x2ac12072,
  0x128e9dcf, 0x164f8078, 0x1b0ca6a1, 0x1fcdbb16,
  0x018aeb13, 0x054bf6a4, 0x0808d07d, 0x0cc9cdca,
  0x7897ab07, 0x7c56b6b0, 0x71159069, 0x75d48dde,
  0x6b93dddb, 0x6f52c06c, 0x6211e6b5, 0x66d0fb02,
  0x5e9f46bf, 0x5a5e5b08, 0x571d7dd1, 0x53dc6066,
  0x4d9b3063, 0x495a2dd4, 0x44190b0d, 0x40d816ba,
  0xaca5c697, 0xa864db20, 0xa527fdf9, 0xa1e6e04e,
  0xbfa1b04b, 0xbb60adfc, 0xb6238b25, 0xb2e29692,
  0x8aad2b2f, 0x8e6c3698, 0x832f1041, 0x87ee0df6,
  0x99a95df3, 0x9d684044, 0x902b669d, 0x94ea7b2a,
  0xe0b41de7, 0xe4750050, 0xe9362689, 0xedf73b3e,
  0xf3b06b3b, 0xf771768c, 0xfa325055, 0xfef34de2,
  0xc6bcf05f, 0xc27dede8, 0xcf3ecb31, 0xcbffd686,
  0xd5b88683, 0xd1799b34, 0xdc3abded, 0xd8fba05a,
  0x690ce0ee, 0x6dcdfd59, 0x608edb80, 0x644fc637,
  0x7a089632, 0x7ec98b85, 0x738aad5c, 0x774bb0eb,
  0x4f040d56, 0x4bc510e1, 0x46863638, 0x42472b8f,
  0x5c007b8a, 0x58c1663d, 0x558240e4, 0x51435d53,
  0x251d3b9e, 0x21dc2629, 0x2c9f00f0, 0x285e1d47,
  0x36194d42, 0x32d850f5, 0x3f9b762c, 0x3b5a6b9b,
  0x0315d626, 0x07d4cb91, 0x0a97ed48, 0x0e56f0ff,
  0x1011a0fa, 0x14d0bd4d, 0x19939b94, 0x1d528623,
  0xf12f560e, 0xf5ee4bb9, 0xf8ad6d60, 0xfc6c70d7,
  0xe22b20d2, 0xe6ea3d65, 0xeba91bbc, 0xef68060b,
  0xd727bbb6, 0xd3e6a601, 0xdea580d8, 0xda649d6f,
  0xc423cd6a, 0xc0e2d0dd, 0xcda1f604, 0xc960ebb3,
  0xbd3e8d7e, 0xb9ff90c9, 0xb4bcb610, 0xb07daba7,
  0xae3afba2, 0xaafbe615, 0xa7b8c0cc, 0xa379dd7b,
  0x9b3660c6, 0x9ff77d71, 0x92b45ba8, 0x9675461f,
  0x8832161a, 0x8cf30bad, 0x81b02d74, 0x857130c3,
  0x5d8a9099, 0x594b8d2e, 0x5408abf7, 0x50c9b640,
  0x4e8ee645, 0x4a4ffbf2, 0x470cdd2b, 0x43cdc09c,
  0x7b827d21, 0x7f436096, 0x7200464f, 0x76c15bf8,
  0x68860bfd, 0x6c47164a, 0x61043093, 0x65c52d24,
  0x119b4be9, 0x155a565e, 0x18197087, 0x1cd86d30,
  0x029f3d35, 0x065e2082, 0x0b1d065b, 0x0fdc1bec,
  0x3793a651, 0x3352bbe6, 0x3e119d3f, 0x3ad08088,
  0x2497d08d, 0x2056cd3a, 0x2d15ebe3, 0x29d4f654,
  0xc5a92679, 0xc1683bce, 0xcc2b1d17, 0xc8ea00a0,
  0xd6ad50a5, 0xd26c4d12, 0xdf2f6bcb, 0xdbee767c,
  0xe3a1cbc1, 0xe760d676, 0xea23f0af, 0xeee2ed18,
  0xf0a5bd1d, 0xf464a0aa, 0xf9278673, 0xfde69bc4,
  0x89b8fd09, 0x8d79e0be, 0x803ac667, 0x84fbdbd0,
  0x9abc8bd5, 0x9e7d9662, 0x933eb0bb, 0x97ffad0c,
  0xafb010b1, 0xab710d06, 0xa6322bdf, 0xa2f33668,
  0xbcb4666d, 0xb8757bda, 0xb5365d03, 0xb1f740b4]

def POLY : Nat := 0x04C11DB7

/-- One MSB-first CRC bit step: shift left, and XOR the polynomial when
the bit shifted out was set. -/
def crcShiftStep (c : Nat) : Nat :=
  if 2 ^ 31 ≤ c then ((c * 2) % 2 ^ 32) ^^^ POLY else (c * 2) % 2 ^ 32

def crcShift8 (c : Nat) : Nat :=
  crcShiftStep (crcShiftStep (crcShiftStep (crcShiftStep
    (crcShiftStep (crcShiftStep (crcShiftStep (crcShiftStep c)))))))

set_option maxHeartbeats 1000000 in
set_option maxRecDepth 10000 in
theorem crc32_table_spec : ∀ i : Fin 256,
    crc32_table.getD i.val 0 = crcShift8 (i.val <<< 24) := by decide

theorem le_pow31_iff_testBit (x : Nat) (hx : x < 2 ^ 32) :
    2 ^ 31 ≤ x ↔ x.testBit 31 = true := by
  rw [Nat.testBit_to_div_mod]
  rw [decide_eq_true_eq]
  omega

theorem xor_mul_two (x y : Nat) : (x ^^^ y) * 2 = x * 2 ^^^ y * 2 := by
  have h : ∀ z : Nat, z * 2 = z <<< 1 := fun z => by
    rw [Nat.shiftLeft_eq]
  rw [h, h, h]
  apply Nat.eq_of_testBit_eq
  intro i
  simp only [Nat.testBit_shiftLeft, Nat.testBit_xor]
  by_cases h1 : 1 ≤ i <;> simp [h1]

theorem xor_mod_two_pow (x y n : Nat) :
    (x ^^^ y) % 2 ^ n = x % 2 ^ n ^^^ y % 2 ^ n := by
  apply Nat.eq_of_testBit_eq
  intro i
  simp only [Nat.testBit_mod_two_pow, Nat.testBit_xor]
  by_cases h : i < n <;> simp [h]

theorem shiftLeft8_mod (crc : Nat) :
    (crc <<< 8) % 2 ^ 32 = (crc % 2 ^ 24) * 256 := by
  rw [Nat.shiftLeft_eq]
  have h := Nat.div_add_mod crc (2 ^ 24)
  norm_num at h ⊢
  omega

theorem crc_decomp (crc b : Nat) :
    crc ^^^ (b <<< 24) = (((crc >>> 24) ^^^ b) <<< 24) ^^^ (crc % 2 ^ 24) := by
  apply Nat.eq_of_testBit_eq
  intro i
  simp only [Nat.testBit_xor, Nat.testBit_shiftLeft, Nat.testBit_shiftRight,
    Nat.testBit_mod_two_pow, ge_iff_le]
  by_cases h : 24 ≤ i
  · have h2 : ¬(i < 24) := by omega
    have h3 : 24 + (i - 24) = i := by omega
    simp only [h, h2, decide_True, decide_False, Bool.true_and, Bool.false_and,
      Bool.xor_false, h3]
  · have h2 : i < 24 := by omega
    simp only [h, h2, decide_True, decide_False, Bool.true_and, Bool.false_and,
      Bool.xor_false, Bool.false_xor]

theorem crcShiftStep_lt (c : Nat) : crcShiftStep c < 2 ^ 32 := by
  rw [crcShiftStep]
  split
  · exact Nat.xor_lt_two_pow (Nat.mod_lt _ (by norm_num)) (by norm_num [POLY])
  · exact Nat.mod_lt _ (by norm_num)

theorem crcShiftStep_xor_lo (A lo : Nat) (hA : A < 2 ^ 32) (hlo : lo < 2 ^ 31) :
    crcShiftStep (A ^^^ lo) = crcShiftStep A ^^^ lo * 2 := by
  have hxlt : A ^^^ lo < 2 ^ 32 :=
    Nat.xor_lt_two_pow hA (lt_trans hlo (by norm_num))
  have htb : (A ^^^ lo).testBit 31 = A.testBit 31 := by
    rw [Nat.testBit_xor, Nat.testBit_lt_two_pow hlo]
    simp
  have hcond : (2 ^ 31 ≤ A ^^^ lo) ↔ (2 ^ 31 ≤ A) := by
    rw [le_pow31_iff_testBit _ hxlt, le_pow31_iff_testBit _ hA, htb]
  have hmul : ((A ^^^ lo) * 2) % 2 ^ 32 = ((A * 2) % 2 ^ 32) ^^^ lo * 2 := by
    rw [xor_mul_two, xor_mod_two_pow]
    congr 1
    exact Nat.mod_eq_of_lt (by omega)
  rw [crcShiftStep, crcShiftStep]
  by_cases hc : 2 ^ 31 ≤ A
  · rw [if_pos (hcond.mpr hc), if_pos hc, hmul]
    rw [Nat.xor_assoc, Nat.xor_assoc]
    congr 1
    exact Nat.xor_comm _ _
  · rw [if_neg (fun hcc => hc (hcond.mp hcc)), if_neg hc, hmul]

theorem crcShift8_xor_lo (A lo : Nat) (hA : A < 2 ^ 32) (hlo : lo < 2 ^ 24) :
    crcShift8 (A ^^^ lo) = crcShift8 A ^^^ lo * 256 := by
  rw [crcShift8, crcShift8]
  rw [crcShiftStep_xor_lo A lo hA (by omega)]
  rw [crcShiftStep_xor_lo _ _ (crcShiftStep_lt A) (by omega)]
  rw [crcShiftStep_xor_lo _ _ (crcShiftStep_lt _) (by omega)]
  rw [crcShiftStep_xor_lo _ _ (crcShiftStep_lt _) (by omega)]
  rw [crcShiftStep_xor_lo _ _ (crcShiftStep_lt _) (by omega)]
  rw [crcShiftStep_xor_lo _ _ (crcShiftStep_lt _) (by omega)]
  rw [crcShiftStep_xor_lo _ _ (crcShiftStep_lt _) (by omega)]
  rw [crcShiftStep_xor_lo _ _ (crcShiftStep_lt _) (by omega)]
  congr 1
  ring

/-- The table-driven `xcrc32(buf, len, init)` of `m68k-gdbserver.c`. -/
def xcrc32 (buf : List Nat) (init : Nat) : Nat :=
  buf.foldl (fun crc b =>
    ((crc <<< 8) % 2 ^ 32) ^^^ crc32_table.getD (((crc >>> 24) ^^^ b) % 256) 0) init

/-- Modelled from the spec: the bitwise reference definition of
libiberty's xcrc32 — per byte, XOR the byte into the top 8 bits and run
eight MSB-first polynomial steps; no final XOR. -/
def crcByteRef (crc b : Nat) : Nat := crcShift8 (crc ^^^ (b <<< 24))

/-- Modelled from the spec: bitwise reference CRC over a byte list. -/
def xcrc32_ref (buf : List Nat) (init : Nat) : Nat := buf.foldl crcByteRef init

theorem crcByte_eq (crc b : Nat) (hc : crc < 2 ^ 32) (hb : b < 256) :
    crcByteRef crc b =
      ((crc <<< 8) % 2 ^ 32) ^^^ crc32_table.getD (((crc >>> 24) ^^^ b) % 256) 0 := by
  have ht : crc >>> 24 < 256 := by
    rw [Nat.shiftRight_eq_div_pow]
    omega
  have hh : (crc >>> 24) ^^^ b < 256 := by
    have hp : (2 : Nat) ^ 8 = 256 := by norm_num
    have h1 : crc >>> 24 < 2 ^ 8 := by omega
    have h2 : b < 2 ^ 8 := by omega
    have h3 := Nat.xor_lt_two_pow h1 h2
    omega
  have hmod : ((crc >>> 24) ^^^ b) % 256 = (crc >>> 24) ^^^ b := Nat.mod_eq_of_lt hh
  rw [hmod, crcByteRef, crc_decomp crc b]
  have hAlt : (((crc >>> 24) ^^^ b) <<< 24) < 2 ^ 32 := by
    rw [Nat.shiftLeft_eq]
    have : (crc >>> 24) ^^^ b ≤ 255 := by omega
    calc ((crc >>> 24) ^^^ b) * 2 ^ 24 ≤ 255 * 2 ^ 24 :=
          Nat.mul_le_mul_right _ this
      _ < 2 ^ 32 := by norm_num
  rw [crcShift8_xor_lo _ _ hAlt (Nat.mod_lt _ (by norm_num))]
  rw [crc32_table_spec ⟨(crc >>> 24) ^^^ b, hh⟩]
  rw [shiftLeft8_mod]
  exact Nat.xor_comm _ _

theorem crcByteRef_lt (crc b : Nat) : crcByteRef crc b < 2 ^ 32 := by
  rw [crcByteRef, crcShift8]
  exact crcShiftStep_lt _

theorem xcrc32_cons (b : Nat) (t : List Nat) (init : Nat) :
    xcrc32 (b :: t) init = xcrc32 t (((init <<< 8) % 2 ^ 32) ^^^
      crc32_table.getD (((init >>> 24) ^^^ b) % 256) 0) := by
  simp only [xcrc32, List.foldl_cons]

theorem xcrc32_ref_cons (b : Nat) (t : List Nat) (init : Nat) :
    xcrc32_ref (b :: t) init = xcrc32_ref t (crcByteRef init b) := by
  simp only [xcrc32_ref, List.foldl_cons]

theorem xcrc32_fold_eq (buf : List Nat) :
    ∀ init : Nat, init < 2 ^ 32 → (∀ b ∈ buf, b < 256) →
    xcrc32 buf init = xcrc32_ref buf init := by
  induction buf with
  | nil =>
      intro init _ _
      simp only [xcrc32, xcrc32_ref, List.foldl_nil]
  | cons b t ih =>
      intro init hinit hb
      rw [xcrc32_cons, xcrc32_ref_cons]
      rw [← crcByte_eq init b hinit (hb b (by simp))]
      exact ih (crcByteRef init b) (crcByteRef_lt init b)
        (fun x hx => hb x (by simp [hx]))

/-- The qCRC reply: `snprintf(response, …, "C%x", crc)` with
`crc = xcrc32(buffer, length, 0xFFFFFFFF)` — `C` followed by the CRC in
lowercase hex with no padding. -/
def qcrcReply (bytes : List Nat) : String :=
  "C" ++ String.mk (Nat.toDigits 16 (xcrc32 bytes 0xFFFFFFFF))

/-- Claim C4: for every byte array and initial value, the table-driven
`xcrc32` equals the bitwise MSB-first CRC-32 with polynomial `0x04C11DB7`
and no final XOR, and the qCRC reply is `C` followed by that CRC (from
init `0xFFFFFFFF`) in hex. -/
theorem c4_xcrc32_libiberty (buf : List Nat) (init : Nat)
    (hb : ∀ x ∈ buf, x < 256) (hinit : init < 2 ^ 32) :
    xcrc32 buf init = xcrc32_ref buf init ∧
      qcrcReply buf =
        "C" ++ String.mk (Nat.toDigits 16 (xcrc32_ref buf 0xFFFFFFFF)) := by
  refine ⟨xcrc32_fold_eq buf init hinit hb, ?_⟩
  rw [qcrcReply, xcrc32_fold_eq buf 0xFFFFFFFF (by norm_num) hb]

/-- Witness for C4 at a concrete two-byte input. -/
theorem c4_xcrc32_libiberty_witness :
    (∀ x ∈ [(0x31 : Nat), 0x32], x < 256) ∧ (0xFFFFFFFF : Nat) < 2 ^ 32 ∧
      (xcrc32 [0x31, 0x32] 0xFFFFFFFF = xcrc32_ref [0x31, 0x32] 0xFFFFFFFF ∧
        qcrcReply [0x31, 0x32] =
          "C" ++ String.mk (Nat.toDigits 16 (xcrc32_ref [0x31, 0x32] 0xFFFFFFFF))) :=
  ⟨by decide, by decide,
    c4_xcrc32_libiberty [0x31, 0x32] 0xFFFFFFFF (by decide) (by decide)⟩

/-! ## USB-level memory read: cmd_0717_read_memory (C10)

`handle_read_memory` clamps `len` to `MAX_PACKET_SIZE / 2 = 2048` and then
calls `cmd_0717_read_memory(g_usb_dev, addr, len, buffer, len)`.  That
function assembles the pod's response into the 256-byte `g_cmd_buffer`
(first IN read of up to 256 bytes, then further IN reads into the
remaining space while fewer than `4 + response_len` bytes have arrived,
fewer than 256 bytes are buffered and fewer than 10 packets were read,
stopping early on a short packet), validates it with
`validate_response(g_cmd_buffer, total_received, 5 + length, …)`, and only
then de-interleaves the 6-byte groups into the caller's buffer.

We model the IN endpoint as the list of successive transfer results:
`some pkt` is a received packet (truncated to the requested space, as a
bulk read cannot return more than asked), `none` a transfer error, and an
exhausted list a timeout — all of which `cmd_0717_read_memory` turns into
its `-1` error return, which `handle_read_memory` reports as `E05`. -/

/-- The additional-packet assembly loop of `cmd_0717_read_memory`.
`pktNum` starts at 2 as in the C. Returns `none` on a transfer error or
timeout, otherwise the assembled buffer contents. -/
def assemble0717 (expected : Nat) : List (Option (List Nat)) → List Nat → Nat →
    Option (List Nat)
  | stream, received, pktNum =>
    if received.length < expected ∧ received.length < 256 ∧ pktNum < 10 then
      match stream with
      | [] => none
      | none :: _ => none
      | some pkt :: rest =>
          let chunk := pkt.take (256 - received.length)
          if chunk.length < 256 - received.length then some (received ++ chunk)
          else assemble0717 expected rest (received ++ chunk) (pktNum + 1)
    else some received

/-- The 6-byte-group de-interleaving loop of `cmd_0717_read_memory`:
copy 4 data bytes (or the remaining count) from each group, skipping the
2 padding bytes, while at least 4 source bytes remain. -/
def extract0717 (bytesRemaining srcOffset : Nat) (received : List Nat) : List Nat :=
  if h : 0 < bytesRemaining ∧ srcOffset + 4 ≤ received.length then
    (received.drop srcOffset).take (if 4 ≤ bytesRemaining then 4 else bytesRemaining) ++
      extract0717 (bytesRemaining - (if 4 ≤ bytesRemaining then 4 else bytesRemaining))
        (srcOffset + 6) received
  else []
termination_by bytesRemaining
decreasing_by
  by_cases h4 : 4 ≤ bytesRemaining <;> simp [h4] <;> omega

/-- `cmd_0717_read_memory(handle, addr, length, buffer, buffer_size)`,
with the IN endpoint given as a stream of transfer results.  `none`
models the `-1` error return; `some data` the bytes extracted into the
caller's buffer on the success path. -/
def cmd_0717_read_memory (length bufferSize : Nat)
    (stream : List (Option (List Nat))) : Option (List Nat) :=
  if bufferSize < length then none
  else
    match stream with
    | [] => none
    | none :: _ => none
    | some p0 :: rest =>
        let first := p0.take 256
        if first.length < 4 then none
        else
          let response_len := Nat.lor (first.getD 2 0 <<< 8) (first.getD 3 0)
          match assemble0717 (4 + response_len) rest first 2 with
          | none => none
          | some received =>
              if validate_response (fun j => received.getD j 0) received.length
                  (5 + length) = false then none
              else some (extract0717 length 5 received)

/-- The USB-read path of `handle_read_memory` once `addr` and `len` are
parsed: clamp `len` to `MAX_PACKET_SIZE / 2` and call
`cmd_0717_read_memory(g_usb_dev, addr, len, buffer, len)`; `none` is the
`E05` error reply. -/
def handle_read_memory_usb (len0 : Nat)
    (stream : List (Option (List Nat))) : Option (List Nat) :=
  cmd_0717_read_memory (if len0 > MAX_PACKET_SIZE / 2 then MAX_PACKET_SIZE / 2 else len0)
    (if len0 > MAX_PACKET_SIZE / 2 then MAX_PACKET_SIZE / 2 else len0) stream

theorem assemble0717_length_le (expected : Nat) (stream : List (Option (List Nat))) :
    ∀ (received : List Nat) (pktNum : Nat), received.length ≤ 256 →
    ∀ r, assemble0717 expected stream received pktNum = some r → r.length ≤ 256 := by
  induction stream with
  | nil =>
      intro received pktNum hle r hr
      rw [assemble0717.eq_def] at hr
      simp only [] at hr
      by_cases hg : received.length < expected ∧ received.length < 256 ∧ pktNum < 10
      · rw [if_pos hg] at hr
        exact absurd hr (by simp)
      · rw [if_neg hg] at hr
        rw [← Option.some.inj hr]
        exact hle
  | cons p rest ih =>
      intro received pktNum hle r hr
      rw [assemble0717.eq_def] at hr
      simp only [] at hr
      by_cases hg : received.length < expected ∧ received.length < 256 ∧ pktNum < 10
      · rw [if_pos hg] at hr
        cases p with
        | none => exact absurd hr (by simp)
        | some pkt =>
            simp only [] at hr
            have hlen2 : (received ++ pkt.take (256 - received.length)).length ≤ 256 := by
              simp only [List.length_append, List.length_take]
              omega
            by_cases hsh : (pkt.take (256 - received.length)).length < 256 - received.length
            · rw [if_pos hsh] at hr
              rw [← Option.some.inj hr]
              exact hlen2
            · rw [if_neg hsh] at hr
              exact ih _ _ hlen2 r hr
      · rw [if_neg hg] at hr
        rw [← Option.some.inj hr]
        exact hle

theorem validate_response_short (bytes : Buf) (len minLength : Nat)
    (h : len < minLength) : validate_response bytes len minLength = false := by
  rw [validate_response, if_pos h]

/-- Reads of more than 251 bytes always fail: at most 256 response bytes
are assembled, but validation demands `5 + length`. -/
theorem cmd_0717_read_memory_fails (length bufferSize : Nat)
    (stream : List (Option (List Nat))) (h : 252 ≤ length) :
    cmd_0717_read_memory length bufferSize stream = none := by
  rw [cmd_0717_read_memory.eq_def]
  by_cases hbs : bufferSize < length
  · rw [if_pos hbs]
  · rw [if_neg hbs]
    match stream with
    | [] => rfl
    | none :: rest => rfl
    | some p0 :: rest =>
        simp only []
        by_cases h4 : (p0.take 256).length < 4
        · rw [if_pos h4]
        · rw [if_neg h4]
          have hfirst : (p0.take 256).length ≤ 256 := by
            simp only [List.length_take]
            omega
          cases hasm : assemble0717
              (4 + Nat.lor ((p0.take 256).getD 2 0 <<< 8) ((p0.take 256).getD 3 0))
              rest (p0.take 256) 2 with
          | none => rfl
          | some received =>
              have hrl : received.length ≤ 256 :=
                assemble0717_length_le _ rest (p0.take 256) 2 hfirst received hasm
              simp only []
              rw [validate_response_short (fun j => received.getD j 0)
                received.length (5 + length) (by omega)]
              simp

/-- Counterexample to C10 as stated: a request for 0xBB8 = 3000 bytes is
clamped to 2048, but the handler then replies `E05` (here with the pod
answering a single full well-formed 256-byte packet
`88 A5 00 FB EE …` — the most it can ever deliver), not 2048 bytes of
data. -/
theorem c10_counterexample :
    handle_read_memory_usb 3000
      [some (0x88 :: 0xA5 :: 0x00 :: 0xFB :: 0xEE :: List.replicate 251 0xFF)] =
      none := by
  exact cmd_0717_read_memory_fails 2048 2048 _ (by omega)

/-- Claim C10, amended: an `m` request with `len > 2048` is clamped to
2048 bytes before the USB read, but the clamped read never succeeds:
`cmd_0717_read_memory` assembles at most 256 response bytes while its
validation demands `5 + 2048`, so whatever the pod sends the handler
replies `E05` rather than 2048 bytes (or `len` bytes) of data.  In
general every read of more than 251 bytes fails this way. -/
theorem c10_amended_clamped_read_fails (len0 : Nat)
    (stream : List (Option (List Nat))) (h : 2048 < len0) :
    (if len0 > MAX_PACKET_SIZE / 2 then MAX_PACKET_SIZE / 2 else len0) = 2048 ∧
      handle_read_memory_usb len0 stream = none ∧
      ∀ l bs, 252 ≤ l → cmd_0717_read_memory l bs stream = none := by
  have hclamp : (if len0 > MAX_PACKET_SIZE / 2 then MAX_PACKET_SIZE / 2 else len0) = 2048 := by
    rw [if_pos (by simpa [MAX_PACKET_SIZE] using h)]
    simp [MAX_PACKET_SIZE]
  refine ⟨hclamp, ?_, fun l bs hl => cmd_0717_read_memory_fails l bs stream hl⟩
  rw [handle_read_memory_usb, hclamp]
  exact cmd_0717_read_memory_fails 2048 2048 stream (by omega)

/-- Witness for the amended C10 at a concrete input: a request for 4096
bytes with the pod answering one full 256-byte packet. -/
theorem c10_amended_clamped_read_fails_witness :
    2048 < 4096 ∧
      ((if 4096 > MAX_PACKET_SIZE / 2 then MAX_PACKET_SIZE / 2 else 4096) = 2048 ∧
        handle_read_memory_usb 4096 [some (List.replicate 256 0xEE)] = none ∧
        ∀ l bs, 252 ≤ l →
          cmd_0717_read_memory l bs [some (List.replicate 256 0xEE)] = none) :=
  ⟨by decide,
    c10_amended_clamped_read_fails 4096 [some (List.replicate 256 0xEE)] (by decide)⟩
